import Mathlib

/-!
Shallow embedding of `src/inject/proto-tap.js` (Enhanced Protocol Buffer
WebSocket Tap v2).  JavaScript numbers on the hot paths are modelled as
`Nat`/`Int` with explicit 32-bit wraparound where the source uses bitwise
operators; JavaScript exceptions are modelled as `Option`/`Bool` results;
the mutable module state (rings, queue, retry counter) is passed
explicitly.  `Date.now()` is passed in as a `now : Nat` parameter and the
send side of sockets is modelled by a success oracle, since both are
environment inputs.
-/

namespace ProtoTap

/-- JSON-normalisable values, the shape of `JSON.parse(JSON.stringify(...))`
results produced by the decode pipeline. -/
inductive JVal where
  | null : JVal
  | s : String → JVal
  | n : Int → JVal
  | arr : List JVal → JVal
  | obj : List (String × JVal) → JVal

/-- A plain JavaScript object: ordered field list (insertion order). -/
abbrev JObj := List (String × JVal)

/-- First-field-wins lookup of a property (JS objects hold each key once;
our constructions keep keys unique, see `objSet`). -/
def objGet (o : JObj) (k : String) : Option JVal :=
  (o.find? (fun p => p.1 = k)).map (·.2)

/-- JS property assignment `o[k] = v`: update the existing slot in place
(keeping its position), otherwise append a new slot. -/
def objSet (o : JObj) (k : String) (v : JVal) : JObj :=
  if o.any (fun p => p.1 = k) then o.map (fun p => if p.1 = k then (k, v) else p)
  else o ++ [(k, v)]

/-- JS truthiness for the values above (`''`, `0` and `null` are falsy). -/
def jsTruthy : JVal → Bool
  | .null => false
  | .s v => v ≠ ""
  | .n v => v ≠ 0
  | .arr _ => true
  | .obj _ => true

/-- `String.prototype.includes` on JS strings. -/
def jsIncludes (s sub : String) : Bool :=
  s.toList.tails.any (fun t => sub.toList.isPrefixOf t)

-- ── Config (source lines 34–38) ──────────────────────────────────────────

def MAX_RETRIES : Nat := 8
def RING_SIZE : Nat := 200
def UNKNOWN_RING : Nat := 500
def SKIP_TOPICS : List String := ["Ping", "Pong", "RealIp", "AnimMsg", "VoiceMsg"]
def GAME_NAMESPACES : List String := ["holdem", "commonProto", "mttPro", "pineapple"]

-- ── Relay (source lines 40–70) ───────────────────────────────────────────

/-- The relay's mutable state: `relayOk`, `retries` and the offline
`queue` of already-serialized records (lines 43–45). -/
structure RelayState where
  relayOk : Bool
  retries : Nat
  queue : List String

/-- The flush loop in `relay.onopen` (line 56):
`while (queue.length) { try { relay.send(queue.shift()); } catch (_) { break; } }`.
Returns the successfully sent records in order and the queue left behind.
Note `queue.shift()` removes the head before `send` is attempted, so a
record whose send throws is neither sent nor left in the queue. -/
def flushLoop (send : String → Bool) : List String → List String × List String
  | [] => ([], [])
  | x :: rest =>
    if send x then
      let r := flushLoop send rest
      (x :: r.1, r.2)
    else ([], rest)

/-- `relay.onopen` (lines 52–58): mark the relay up, reset the retry
counter and flush the offline queue.  Returns the new state and the list
of records sent. -/
def onOpen (send : String → Bool) (st : RelayState) : RelayState × List String :=
  let f := flushLoop send st.queue
  ({ relayOk := true, retries := 0, queue := f.2 }, f.1)

/-- `relay.onclose` (lines 59–62): mark the relay down, bump the retry
counter, and (while the counter is still within `MAX_RETRIES`) schedule a
reconnect after `min(30000, 1000 * retries * retries)` ms.  Returns the
new state and the scheduled delay, if any. -/
def onClose (st : RelayState) : RelayState × Option Nat :=
  let r := st.retries + 1
  let st' : RelayState := { st with relayOk := false, retries := r }
  if r ≤ MAX_RETRIES then (st', some (min 30000 (1000 * r * r))) else (st', none)

/-- Delays scheduled by `n` consecutive close events starting from `st`. -/
def closeSeq : RelayState → Nat → List (Option Nat)
  | _, 0 => []
  | st, n + 1 =>
    let c := onClose st
    c.2 :: closeSeq c.1 n

/-- `relayEmit` (lines 67–70): when the relay is up try an immediate send
(a throwing send falls through), otherwise enqueue — but only while the
offline queue holds fewer than 500 records; overflow drops the new record. -/
def relayEmit (send : String → Bool) (st : RelayState) (j : String) : RelayState :=
  if st.relayOk ∧ send j then st
  else if st.queue.length < 500 then { st with queue := st.queue ++ [j] }
  else st

-- ── Schema registry (the external `protobuf.roots['default']`) ───────────

/-- A decoded `Wrapper` envelope: `{ topic: string, body: bytes }`.
`body` is a byte array (an absent body behaves like an empty one, since
the source then tests `w.body.length > 0`). -/
structure WrapperMsg where
  topic : String
  body : List Nat

/-- One namespace of the externally supplied schema registry, holding the
optional `MessageId` enum (`Object.entries` order), the optional `Wrapper`
codec, and the per-type body decoders.  A decoder returning `none` models
a decode that throws. -/
structure PbNs where
  messageId : Option (List (String × Nat))
  wrapperDecode : Option (List Nat → Option WrapperMsg)
  wrapperEncode : Option (WrapperMsg → Option (List Nat))
  actionReqEncode : Option (Int → Int → Int → Option (List Nat))
  types : List (String × (List Nat → Option JObj))

/-- The registry root `pb`: namespaces keyed by name. -/
abbrev PbRoot := List (String × PbNs)

/-- `pb[ns]` lookup. -/
def nsLookup (pb : PbRoot) (ns : String) : Option PbNs :=
  (pb.find? (fun p => p.1 = ns)).map (·.2)

/-- `nsObj[typeName]` lookup of a per-type body decoder. -/
def typeLookup (ts : List (String × (List Nat → Option JObj))) (ty : String) :
    Option (List Nat → Option JObj) :=
  (ts.find? (fun p => p.1 = ty)).map (·.2)

-- ── Reverse ID map (source lines 101–112) ────────────────────────────────

/-- `_idToType[id] = { ns, typeName }` on a numeric-keyed JS object:
overwrite the existing key, else add it. -/
def idSet (m : List (Nat × String × String)) (id : Nat) (v : String × String) :
    List (Nat × String × String) :=
  if m.any (fun p => p.1 = id) then m.map (fun p => if p.1 = id then (id, v) else p)
  else m ++ [(id, v)]

/-- `_idToType[msgId]` lookup. -/
def idLookup (m : List (Nat × String × String)) (id : Nat) : Option (String × String) :=
  (m.find? (fun p => p.1 = id)).map (·.2)

/-- One iteration of the `buildReverseIdMap` outer loop (lines 105–111):
fold one namespace's `MessageId` entries into the map, skipping numeric
ID 0, overwriting colliding IDs from earlier namespaces. -/
def nsStep (pb : PbRoot) (acc : List (Nat × String × String)) (ns : String) :
    List (Nat × String × String) :=
  match nsLookup pb ns with
  | none => acc
  | some nsObj =>
    match nsObj.messageId with
    | none => acc
    | some entries =>
      entries.foldl (fun m e => if e.2 = 0 then m else idSet m e.2 (ns, e.1)) acc

/-- `buildReverseIdMap` (lines 103–112): iterate the fixed priority order,
skip numeric ID 0, and let later namespaces overwrite earlier ones. -/
def buildReverseIdMap (pb : PbRoot) : List (Nat × String × String) :=
  ["pineapple", "commonProto", "mttPro", "holdem"].foldl (nsStep pb) []

-- ── Forward ID maps `msgIdMaps` (source lines 85–99) ─────────────────────

/-- Insert into a numeric-keyed JS object `m[id] = name`. -/
def natSet (m : List (Nat × String)) (id : Nat) (v : String) : List (Nat × String) :=
  if m.any (fun p => p.1 = id) then m.map (fun p => if p.1 = id then (id, v) else p)
  else m ++ [(id, v)]

/-- Ascending insertion by key, modelling that `Object.entries` of a
numeric-keyed JS object yields keys in ascending numeric order. -/
def insertByKey (p : Nat × String) : List (Nat × String) → List (Nat × String)
  | [] => [p]
  | q :: rest => if p.1 < q.1 then p :: q :: rest else q :: insertByKey p rest

/-- Sort the slots of a numeric-keyed object for enumeration. -/
def sortByKey (l : List (Nat × String)) : List (Nat × String) :=
  l.foldr insertByKey []

/-- `buildIdMap` (lines 85–90) for one namespace: invert the `MessageId`
enum into an id-keyed object (enumerated in ascending numeric key order). -/
def buildIdMap (nsObj : PbNs) : Option (List (Nat × String)) :=
  nsObj.messageId.map (fun entries =>
    sortByKey (entries.foldl (fun m e => natSet m e.2 e.1) []))

/-- The `msgIdMaps` table after startup ran `GAME_NAMESPACES.forEach(buildIdMap)`
(lines 380–384). -/
def msgIdMapsOf (pb : PbRoot) : List (String × List (Nat × String)) :=
  GAME_NAMESPACES.filterMap (fun ns =>
    (nsLookup pb ns).bind (fun o => (buildIdMap o).map (fun m => (ns, m))))

/-- `lookupMsgId` (lines 92–99): scan the namespace's id map in
enumeration order for the first id whose name matches. -/
def lookupMsgId (mm : List (String × List (Nat × String))) (ns ty : String) : Option Nat :=
  match (mm.find? (fun p => p.1 = ns)).map (·.2) with
  | none => none
  | some m => (m.find? (fun p => p.2 = ty)).map (·.1)

-- ── Ring buffers (source lines 114–127) ──────────────────────────────────

/-- Shared shape of `pushRing`/`pushUnknown`: append, and if the length now
exceeds the capacity, `shift()` the oldest entry off the front. -/
def ringPushAux {α : Type} (cap : Nat) (buf : List α) (e : α) : List α :=
  if cap < (buf ++ [e]).length then (buf ++ [e]).drop 1 else buf ++ [e]

-- ── Byte-level helpers for `decodeFrame` ─────────────────────────────────

/-- Read one byte of the frame (`Uint8Array` elements are always < 256;
out-of-range reads yield `undefined`, which the source never hits on the
indices it uses once `bytes.length ≥ 6` holds). -/
def byteAt (bytes : List Nat) (i : Nat) : Nat :=
  bytes.getD i 0 % 256

/-- The first four bytes read as a big-endian 32-bit **unsigned** value. -/
def u32be (bytes : List Nat) : Nat :=
  byteAt bytes 0 * 2 ^ 24 + byteAt bytes 1 * 2 ^ 16 + byteAt bytes 2 * 2 ^ 8 + byteAt bytes 3

/-- Reinterpret a 32-bit pattern as a JS signed 32-bit integer. -/
def toInt32 (n : Nat) : Int :=
  if n % 2 ^ 32 < 2 ^ 31 then ((n % 2 ^ 32 : Nat) : Int)
  else ((n % 2 ^ 32 : Nat) : Int) - 2 ^ 32

/-- `frameLen` (line 157): `(bytes[0] << 24) | (bytes[1] << 16) | (bytes[2] << 8) | bytes[3]`.
The bitwise operators work on signed 32-bit integers, so the result is the
unsigned big-endian value reinterpreted as signed (negative when
`bytes[0] ≥ 0x80`). -/
def frameLenI (bytes : List Nat) : Int :=
  toInt32 (u32be bytes)

/-- `msgId` (line 159): `(bytes[4] << 8) | bytes[5]`, always in `[0, 2^16)`. -/
def msgIdOf (bytes : List Nat) : Nat :=
  byteAt bytes 4 * 2 ^ 8 + byteAt bytes 5

/-- Lower-case hex digit. -/
def hexDigit (n : Nat) : Char :=
  "0123456789abcdef".toList.getD n '0'

/-- `b.toString(16).padStart(2, '0')` for a byte. -/
def hexByte (b : Nat) : String :=
  String.mk [hexDigit (b / 16 % 16), hexDigit (b % 16)]

/-- `Array.from(bytes).map(b => b.toString(16).padStart(2, '0')).join(' ')`. -/
def hexJoin (bytes : List Nat) : String :=
  String.intercalate " " (bytes.map (fun b => hexByte (b % 256)))

/-- `wsUrl.replace(/[?#].*$/, '').substring(0, 80)` (lines 184, 195, 252). -/
def trimUrl (url : String) : String :=
  String.mk ((url.toList.takeWhile (fun c => c ≠ '?' ∧ c ≠ '#')).take 80)

-- ── Decode results and side effects ──────────────────────────────────────

/-- A `DecodedEvent` (`evt` objects built at lines 178–186 and 246–254;
the constant `type: 'proto_event'` field is left implicit). -/
structure Evt where
  ns : String
  topic : String
  msgId : Option Nat
  ts : Nat
  wsUrl : String
  data : Option JObj

/-- An `UnknownFrame` record (`entry` object, lines 197–206). -/
structure UEntry where
  msgId : Nat
  len : Int
  ts : Nat
  wsUrl : String
  hex : String
  bodyHex : String
  bodyLen : Nat

/-- A record handed to `relayEmit` (the source stringifies it first; we
keep the structured value). -/
inductive RelayRec where
  | ev : Evt → RelayRec
  | unk : UEntry → RelayRec

/-- `pushRing` (lines 119–122) on the decoded-events ring (capacity 200). -/
def pushRing (buf : List Evt) (e : Evt) : List Evt :=
  ringPushAux RING_SIZE buf e

/-- `pushUnknown` (lines 124–127) on the unknown-frames ring (capacity 500). -/
def pushUnknown (buf : List UEntry) (e : UEntry) : List UEntry :=
  ringPushAux UNKNOWN_RING buf e

/-- Everything one `decodeFrame` call does: its return value and, in call
order, the `pushRing`/`pushUnknown`/`relayEmit`/`busEmit` calls it made,
the `_lastRoomId` update if any, and whether control reached the
wrapper-scheme namespace loop (lines 214–262). -/
structure DecodeOutcome where
  result : Option Evt
  ringPush : List Evt
  unknownPush : List UEntry
  relayed : List RelayRec
  busEmits : List (String × Evt)
  lastRoomId : Option JVal
  attemptedWrapper : Bool

/-- The outcome of a `return null` taken before any side effect. -/
def nullOutcome : DecodeOutcome :=
  { result := none, ringPush := [], unknownPush := [], relayed := [],
    busEmits := [], lastRoomId := none, attemptedWrapper := false }

/-- Body decode with the fallback of lines 169–173 / 237–241: on a decode
throw substitute `{ _raw: Array.from(body).slice(0, 32) }`. -/
def decodeBody (dec : List Nat → Option JObj) (body : List Nat) : JObj :=
  match dec body with
  | some v => v
  | none => [("_raw", JVal.arr ((body.take 32).map (fun b => JVal.n (b : Int))))]

/-- `if (decoded && decoded.roomId) _lastRoomId = decoded.roomId` (lines
176, 244). -/
def roomIdUpdate (decoded : Option JObj) : Option JVal :=
  match decoded with
  | none => none
  | some d =>
    match objGet d "roomId" with
    | some v => if jsTruthy v then some v else none
    | none => none

/-- The length-prefixed branch of `decodeFrame` (lines 157–211), entered
once `frameLen === bytes.length && frameLen >= 6` held. -/
def lpBranch (pb : PbRoot) (idToType : List (Nat × String × String)) (now : Nat)
    (wsUrl : String) (bytes : List Nat) : DecodeOutcome :=
  let msgId := msgIdOf bytes
  match idLookup idToType msgId with
  | some nsTy =>
    let ns := nsTy.1
    let typeName := nsTy.2
    if typeName ∈ SKIP_TOPICS then nullOutcome
    else
      let decoder? := (nsLookup pb ns).bind (fun o => typeLookup o.types typeName)
      let decoded : Option JObj :=
        match decoder? with
        | some dec => if 6 < bytes.length then some (decodeBody dec (bytes.drop 6)) else none
        | none => none
      let evt : Evt :=
        { ns := ns, topic := typeName, msgId := some msgId, ts := now,
          wsUrl := trimUrl wsUrl, data := decoded }
      { result := some evt, ringPush := [evt], unknownPush := [],
        relayed := [.ev evt], busEmits := [(typeName, evt)],
        lastRoomId := roomIdUpdate decoded, attemptedWrapper := false }
  | none =>
    let trimmedUrl := trimUrl wsUrl
    let bodyBytes := if 6 < bytes.length then bytes.drop 6 else []
    let entry : UEntry :=
      { msgId := msgId, len := frameLenI bytes, ts := now, wsUrl := trimmedUrl,
        hex := hexJoin bytes, bodyHex := hexJoin bodyBytes, bodyLen := bodyBytes.length }
    { result := none, ringPush := [], unknownPush := [entry],
      relayed := [.unk entry], busEmits := [], lastRoomId := none,
      attemptedWrapper := false }

/-- The decoder search of lines 227–233: the first configured namespace
defining `typeName`. -/
def findTypeDecoder (pb : PbRoot) (ty : String) :
    List String → Option (String × (List Nat → Option JObj))
  | [] => none
  | tryNs :: rest =>
    match (nsLookup pb tryNs).bind (fun o => typeLookup o.types ty) with
    | some d => some (tryNs, d)
    | none => findTypeDecoder pb ty rest

/-- The last dot-separated segment of a wrapper topic (line 222):
`topicStr.includes('.') ? topicStr.split('.').pop() : topicStr`, i.e. the
characters after the final dot when one occurs. -/
def lastSeg (topic : String) : String :=
  if topic.toList.contains '.' then
    String.mk ((topic.toList.reverse.takeWhile (fun c => c ≠ '.')).reverse)
  else topic

/-- The wrapper-scheme namespace loop (lines 214–262), recursing over the
remaining namespaces; a namespace is skipped (`continue`) when it is
absent, has no `Wrapper`, its envelope decode throws, or the decoded
envelope lacks a non-empty topic. -/
def wrapperLoop (pb : PbRoot) (mm : List (String × List (Nat × String))) (now : Nat)
    (wsUrl : String) (bytes : List Nat) : List String → DecodeOutcome
  | [] => nullOutcome
  | ns :: rest =>
    match (nsLookup pb ns).bind (fun o => o.wrapperDecode) with
    | none => wrapperLoop pb mm now wsUrl bytes rest
    | some dec =>
      match dec bytes with
      | none => wrapperLoop pb mm now wsUrl bytes rest
      | some w =>
        if w.topic = "" then wrapperLoop pb mm now wsUrl bytes rest
        else
          let typeName := lastSeg w.topic
          if typeName ∈ SKIP_TOPICS then nullOutcome
          else
            let own := (nsLookup pb ns).bind (fun o => typeLookup o.types typeName)
            let resolved : Option (String × (List Nat → Option JObj)) :=
              match own with
              | some d => some (ns, d)
              | none => findTypeDecoder pb typeName GAME_NAMESPACES
            let decoderNs := match resolved with | some r => r.1 | none => ns
            let decoded : Option JObj :=
              match resolved with
              | some r => if w.body ≠ [] then some (decodeBody r.2 w.body) else none
              | none => none
            let evt : Evt :=
              { ns := decoderNs, topic := typeName,
                msgId := lookupMsgId mm decoderNs typeName, ts := now,
                wsUrl := trimUrl wsUrl, data := decoded }
            let emits :=
              if decoderNs ≠ ns then [(typeName, evt), (decoderNs ++ "." ++ typeName, evt)]
              else [(typeName, evt)]
            { result := some evt, ringPush := [evt], unknownPush := [],
              relayed := [.ev evt], busEmits := emits,
              lastRoomId := roomIdUpdate decoded, attemptedWrapper := false }

/-- `decodeFrame` (lines 150–264) with the module state it reads passed
explicitly: the resolved registry (`none` while `resolvePb()` fails), the
reverse ID map, the forward `msgIdMaps`, and the clock. -/
def decodeFrame (pb? : Option PbRoot) (idToType : List (Nat × String × String))
    (mm : List (String × List (Nat × String))) (now : Nat)
    (wsUrl : String) (bytes : List Nat) : DecodeOutcome :=
  match pb? with
  | none => nullOutcome
  | some pb =>
    if bytes.length < 6 then nullOutcome
    else if frameLenI bytes = (bytes.length : Int) ∧ 6 ≤ frameLenI bytes then
      lpBranch pb idToType now wsUrl bytes
    else
      { wrapperLoop pb mm now wsUrl bytes GAME_NAMESPACES with attemptedWrapper := true }

-- ── In-page event bus (source lines 129–146) ─────────────────────────────

/-- `_handlers[topic]` as a topic-keyed table of handler identities in
insertion order (a JS `Set` iterates in insertion order). -/
def handlersFor (hs : List (String × List Nat)) (topic : String) : List Nat :=
  ((hs.find? (fun p => p.1 = topic)).map (·.2)).getD []

/-- The wildcard argument `\x7b topic, ...data \x7d` of line 145: a fresh
object starting with the publish topic, over which `data`'s own fields are
spread — so a `topic` field of `data` overwrites the publish topic. -/
def mkAug (topic : String) (data : JObj) : JObj :=
  data.foldl (fun o p => objSet o p.1 p.2) [("topic", JVal.s topic)]

/-- `busEmit` (lines 141–146): invoke the exact-topic handlers with the
event, then the `'*'` handlers with the spread-augmented event; returns
the invocation list in order (thrown handler errors are swallowed and
cannot stop the iteration, so every registered handler appears). -/
def busEmit (hs : List (String × List Nat)) (topic : String) (data : JObj) :
    List (Nat × JObj) :=
  (handlersFor hs topic).map (fun i => (i, data)) ++
    (handlersFor hs "*").map (fun i => (i, mkAug topic data))

/-- A decoded event as the JS object `busEmit` receives (field insertion
order of the literals at lines 178–186 / 246–254). -/
def evtToObj (e : Evt) : JObj :=
  [("type", JVal.s "proto_event"),
   ("ns", JVal.s e.ns),
   ("topic", JVal.s e.topic),
   ("msgId", match e.msgId with | some m => JVal.n (m : Int) | none => JVal.null),
   ("ts", JVal.n (e.ts : Int)),
   ("wsUrl", JVal.s e.wsUrl),
   ("data", match e.data with | some d => JVal.obj d | none => JVal.null)]

-- ── Action sender (source lines 309–333) ─────────────────────────────────

/-- A tracked connection as `sendAction` sees it: its ready state and
whether a `send` on it succeeds (a failing send models a throw). -/
structure Socket where
  readyState : Nat
  sendOk : Bool

/-- `readyState === _OrigWS.OPEN`. -/
def WS_OPEN : Nat := 1

/-- The eligibility test of line 315: non-loopback URL and open state. -/
def eligible (p : String × Socket) : Bool :=
  !jsIncludes p.1 "localhost" && !jsIncludes p.1 "127.0.0.1" && p.2.readyState == WS_OPEN

/-- The `for (const [url, ws] of sockets)` scan of lines 313–318: the first
eligible entry in insertion order. -/
def firstEligible (sockets : List (String × Socket)) : Option (String × Socket) :=
  sockets.find? eligible

/-- The try-block of lines 321–328 up to the `send`: encode the
`ActionReq` body, wrap it in a `holdem.ActionReq` envelope.  `none` at any
step models the corresponding throw (including `ActionReq`/`Wrapper`
being undefined on the namespace). -/
def encodeEnvelope (hd : PbNs) (roomId action coin : Int) : Option (List Nat) :=
  match hd.actionReqEncode with
  | none => none
  | some enc =>
    match enc roomId action coin with
    | none => none
    | some body =>
      match hd.wrapperEncode with
      | none => none
      | some wenc => wenc { topic := "holdem.ActionReq", body := body }

/-- `sendAction` (lines 310–333).  Returns the boolean result together
with the send it performed (`some (url, buf)` when the envelope bytes were
handed to that connection's `send`, even if that send then threw). -/
def sendAction (pb? : Option PbRoot) (sockets : List (String × Socket))
    (roomId action coin : Int) : Bool × Option (String × List Nat) :=
  match pb? with
  | none => (false, none)
  | some pb =>
    match nsLookup pb "holdem" with
    | none => (false, none)
    | some hd =>
      match firstEligible sockets with
      | none => (false, none)
      | some s =>
        match encodeEnvelope hd roomId action coin with
        | none => (false, none)
        | some buf => (s.2.sendOk, some (s.1, buf))

-- ── Sample values used to instantiate hypotheses concretely ──────────────

/-- A concrete decoded event. -/
def sampleEvt : Evt :=
  { ns := "holdem", topic := "ActionAck", msgId := some 3, ts := 0,
    wsUrl := "wss://game.example/ws", data := none }

/-- A concrete unknown-frame record. -/
def sampleUnk : UEntry :=
  { msgId := 9999, len := 10, ts := 0, wsUrl := "wss://game.example/ws",
    hex := "", bodyHex := "", bodyLen := 4 }

/-- The classification the wrapper loop performs on its way down the
namespace list: the first namespace whose `Wrapper` decode of the frame
succeeds with a non-empty topic, together with that topic. -/
def firstWrapperHit (pb : PbRoot) (bytes : List Nat) : List String → Option (String × String)
  | [] => none
  | ns :: rest =>
    match (nsLookup pb ns).bind (fun o => o.wrapperDecode) with
    | none => firstWrapperHit pb bytes rest
    | some dec =>
      match dec bytes with
      | none => firstWrapperHit pb bytes rest
      | some w => if w.topic = "" then firstWrapperHit pb bytes rest else some (ns, w.topic)

/-- A registry namespace whose encoders all succeed. -/
def sampleHoldem : PbNs :=
  { messageId := some [("ActionReq", 1)], wrapperDecode := none,
    wrapperEncode := some (fun w => some w.body),
    actionReqEncode := some (fun _ _ _ => some [8, 1]), types := [] }

/-- A registry namespace whose `Wrapper` decode always yields a `Ping`
envelope. -/
def samplePingNs : PbNs :=
  { messageId := none, wrapperDecode := some (fun _ => some { topic := "Ping", body := [] }),
    wrapperEncode := none, actionReqEncode := none, types := [] }

/-- A registry whose `pineapple.MessageId` assigns numeric ID 0 to a type
name. -/
def sampleZeroPb : PbRoot :=
  [("pineapple", { messageId := some [("ZeroMsg", 0), ("OneMsg", 1)], wrapperDecode := none,
                   wrapperEncode := none, actionReqEncode := none, types := [] })]

/-- A frame of 2^31 bytes whose first four bytes, read as a big-endian
32-bit unsigned integer, equal its length. -/
def cxBytes : List Nat :=
  128 :: 0 :: 0 :: 0 :: 0 :: 0 :: List.replicate (2 ^ 31 - 6) 0

-- ═════════════════════════════════ Theorems ══════════════════════════════

-- ── Relay flush (C3) ─────────────────────────────────────────────────────

/-- The flush loop sends the longest prefix of records whose sends
succeed; the record on which `send` first fails has already been
`shift()`ed off, so the queue left behind starts after it. -/
theorem flushLoop_eq (send : String → Bool) (q : List String) :
    flushLoop send q = (q.takeWhile send, q.drop ((q.takeWhile send).length + 1)) := by
  induction q with
  | nil => rfl
  | cons x rest ih =>
    by_cases h : send x
    · simp [flushLoop, h, List.takeWhile_cons, ih]
    · simp [flushLoop, h, List.takeWhile_cons]

/-- C3 (corrected): on entering Open the retry counter is reset to 0 and
the queue is flushed in FIFO order, stopping at the first failed send;
but the record whose send failed was already removed from the queue, so
it is lost — only the records after it stay queued. -/
theorem onOpen_resets_and_flushes (send : String → Bool) (st : RelayState) :
    (onOpen send st).1.retries = 0 ∧
    (onOpen send st).1.relayOk = true ∧
    (onOpen send st).2 = st.queue.takeWhile send ∧
    (onOpen send st).1.queue = st.queue.drop ((st.queue.takeWhile send).length + 1) := by
  refine ⟨rfl, rfl, ?_, ?_⟩ <;> simp [onOpen, flushLoop_eq]

/-- C3 counterexample: with a queue `["a", "b"]` and a send that always
throws, the flush sends nothing and leaves only `["b"]` queued — the
unsent record `"a"` is lost, contradicting "no queued item other than
those already sent is lost". -/
theorem onOpen_loses_failed_record :
    (onOpen (fun _ => false) ⟨false, 3, ["a", "b"]⟩).2 = [] ∧
    (onOpen (fun _ => false) ⟨false, 3, ["a", "b"]⟩).1.queue = ["b"] ∧
    "a" ∉ (onOpen (fun _ => false) ⟨false, 3, ["a", "b"]⟩).1.queue := by
  refine ⟨rfl, rfl, by decide⟩

/-- Witness for `onOpen_resets_and_flushes` at a concrete state. -/
theorem onOpen_resets_and_flushes_witness :
    (onOpen (fun _ => true) ⟨false, 5, ["a", "b", "c"]⟩).1.retries = 0 ∧
    (onOpen (fun _ => true) ⟨false, 5, ["a", "b", "c"]⟩).2 = ["a", "b", "c"] := by
  have h := onOpen_resets_and_flushes (fun _ => true) ⟨false, 5, ["a", "b", "c"]⟩
  exact ⟨h.1, by rw [h.2.2.1]; rfl⟩

-- ── Relay backoff (C5) ───────────────────────────────────────────────────

/-- C5 (confirmed): nine consecutive relay closures starting from a
freshly opened connection schedule reconnects after 1000, 4000, 9000,
16000, 25000, 30000, 30000, 30000 ms, and the ninth failure schedules
nothing. -/
theorem relay_backoff_delays (ok : Bool) (q : List String) :
    closeSeq ⟨ok, 0, q⟩ 9 =
      [some 1000, some 4000, some 9000, some 16000, some 25000,
       some 30000, some 30000, some 30000, none] := by
  norm_num [closeSeq, onClose, MAX_RETRIES]

-- ── Relay queue bound (C6) ───────────────────────────────────────────────

/-- C6 (confirmed): `relayEmit` never grows the queue beyond 500 records,
and with 500 (or more) records already queued it returns the state
unchanged — the new record is dropped, no queued record is evicted. -/
theorem relayEmit_bounded :
    (∀ (send : String → Bool) (st : RelayState) (j : String),
      st.queue.length ≤ 500 → (relayEmit send st j).queue.length ≤ 500) ∧
    (∀ (send : String → Bool) (st : RelayState) (j : String),
      500 ≤ st.queue.length → relayEmit send st j = st) := by
  constructor
  · intro send st j h
    unfold relayEmit
    by_cases h1 : st.relayOk ∧ send j
    · rw [if_pos h1]; exact h
    · rw [if_neg h1]
      by_cases hq : st.queue.length < 500
      · rw [if_pos hq]
        show (st.queue ++ [j]).length ≤ 500
        rw [List.length_append]
        simp only [List.length_cons, List.length_nil]
        omega
      · rw [if_neg hq]; exact h
  · intro send st j h
    unfold relayEmit
    by_cases h1 : st.relayOk ∧ send j
    · rw [if_pos h1]
    · rw [if_neg h1, if_neg (by omega)]

/-- Witness for `relayEmit_bounded` at a full queue: a 501st enqueue on a
disconnected relay leaves the state unchanged. -/
theorem relayEmit_bounded_witness :
    relayEmit (fun _ => true) ⟨false, 0, List.replicate 500 "x"⟩ "y" =
      ⟨false, 0, List.replicate 500 "x"⟩ := by
  exact relayEmit_bounded.2 (fun _ => true) ⟨false, 0, List.replicate 500 "x"⟩ "y"
    (by rw [List.length_replicate])

-- ── Ring buffers (C7) ────────────────────────────────────────────────────

/-- One push keeps a ring within its capacity. -/
theorem ringPushAux_length_le {α : Type} (cap : Nat) (l : List α) (e : α)
    (h : l.length ≤ cap) : (ringPushAux cap l e).length ≤ cap := by
  unfold ringPushAux
  split
  · rw [List.length_drop, List.length_append]
    simp only [List.length_cons, List.length_nil]
    omega
  · next hn =>
      rw [List.length_append] at hn ⊢
      simp only [List.length_cons, List.length_nil] at hn ⊢
      omega

/-- Pushing onto a full ring evicts exactly the oldest entry. -/
theorem ringPushAux_evict {α : Type} (cap : Nat) (l : List α) (e : α)
    (hcap : 0 < cap) (h : l.length = cap) :
    ringPushAux cap l e = l.drop 1 ++ [e] := by
  unfold ringPushAux
  rw [if_pos (by rw [List.length_append]; simp only [List.length_cons, List.length_nil]; omega)]
  exact List.drop_append_of_le_length (by omega)

/-- Any fold of pushes starting within capacity stays within capacity. -/
theorem ringPushAux_foldl_le {α : Type} (cap : Nat) (es : List α) :
    ∀ acc : List α, acc.length ≤ cap → ((es.foldl (ringPushAux cap) acc).length ≤ cap) := by
  induction es with
  | nil => intro acc h; simpa using h
  | cons e rest ih =>
    intro acc h
    exact ih _ (ringPushAux_length_le cap acc e h)

/-- C7 (confirmed): both rings never exceed their capacities (200 decoded
events, 500 unknown frames) under any sequence of pushes from empty, and
a push onto a full ring evicts exactly the oldest entry, keeping the
rest in FIFO order. -/
theorem ring_buffers_bounded :
    (∀ es : List Evt, ((es.foldl pushRing []).length ≤ 200)) ∧
    (∀ us : List UEntry, ((us.foldl pushUnknown []).length ≤ 500)) ∧
    (∀ (l : List Evt) (e : Evt), l.length ≤ 200 → (pushRing l e).length ≤ 200) ∧
    (∀ (l : List UEntry) (u : UEntry), l.length ≤ 500 → (pushUnknown l u).length ≤ 500) ∧
    (∀ (l : List Evt) (e : Evt), l.length = 200 → pushRing l e = l.drop 1 ++ [e]) ∧
    (∀ (l : List UEntry) (u : UEntry), l.length = 500 → pushUnknown l u = l.drop 1 ++ [u]) :=
  ⟨fun es => ringPushAux_foldl_le RING_SIZE es [] (by simp),
   fun us => ringPushAux_foldl_le UNKNOWN_RING us [] (by simp),
   fun l e h => ringPushAux_length_le RING_SIZE l e h,
   fun l u h => ringPushAux_length_le UNKNOWN_RING l u h,
   fun l e h => ringPushAux_evict RING_SIZE l e (by norm_num [RING_SIZE]) h,
   fun l u h => ringPushAux_evict UNKNOWN_RING l u (by norm_num [UNKNOWN_RING]) h⟩

/-- Witness for `ring_buffers_bounded` at the 200/500 boundaries. -/
theorem ring_buffers_bounded_witness :
    pushRing (List.replicate 200 sampleEvt) sampleEvt =
      (List.replicate 200 sampleEvt).drop 1 ++ [sampleEvt] ∧
    pushUnknown (List.replicate 500 sampleUnk) sampleUnk =
      (List.replicate 500 sampleUnk).drop 1 ++ [sampleUnk] :=
  ⟨ring_buffers_bounded.2.2.2.2.1 (List.replicate 200 sampleEvt) sampleEvt
      (by rw [List.length_replicate]),
   ring_buffers_bounded.2.2.2.2.2 (List.replicate 500 sampleUnk) sampleUnk
      (by rw [List.length_replicate])⟩

-- ── Event bus (C4) ───────────────────────────────────────────────────────

/-- Scanning for a different key is unchanged by the in-place slot update
of `objSet`. -/
theorem find?_setSlot_ne (k k' : String) (v : JVal) (h : k' ≠ k) (o : JObj) :
    List.find? (fun q => q.1 = k') (o.map (fun q => if q.1 = k then (k, v) else q)) =
      List.find? (fun q => q.1 = k') o := by
  induction o with
  | nil => rfl
  | cons p rest ih =>
    simp only [List.map_cons]
    by_cases hp : p.1 = k
    · rw [if_pos hp]
      rw [List.find?_cons_of_neg _ (by simp only [decide_eq_true_eq]; exact fun hh => h hh.symm)]
      rw [List.find?_cons_of_neg _ (by
        simp only [decide_eq_true_eq, hp]; exact fun hh => h hh.symm)]
      exact ih
    · rw [if_neg hp]
      by_cases hk2 : p.1 = k'
      · rw [List.find?_cons_of_pos _ (by simp [hk2]), List.find?_cons_of_pos _ (by simp [hk2])]
      · rw [List.find?_cons_of_neg _ (by simp [hk2]), List.find?_cons_of_neg _ (by simp [hk2])]
        exact ih

/-- Property lookup is unchanged by assigning a different key. -/
theorem objGet_objSet_ne (o : JObj) (k k' : String) (v : JVal) (h : k' ≠ k) :
    objGet (objSet o k v) k' = objGet o k' := by
  unfold objSet
  by_cases ha : o.any (fun p => p.1 = k)
  · rw [if_pos ha]
    unfold objGet
    rw [find?_setSlot_ne k k' v h o]
  · rw [if_neg ha]
    unfold objGet
    rw [List.find?_append,
      List.find?_cons_of_neg _ (by simp only [decide_eq_true_eq]; exact fun hh => h hh.symm),
      List.find?_nil, Option.or_none]

/-- Folding property assignments whose keys all differ from `k'` leaves
the `k'` slot of the base object untouched. -/
theorem objGet_foldl_ne (k' : String) (d : JObj) (h : ∀ p ∈ d, p.1 ≠ k') :
    ∀ acc : JObj, objGet (d.foldl (fun o p => objSet o p.1 p.2) acc) k' = objGet acc k' := by
  induction d with
  | nil => intro acc; rfl
  | cons p rest ih =>
    intro acc
    rw [List.foldl_cons, ih (fun q hq => h q (List.mem_cons_of_mem p hq)),
      objGet_objSet_ne acc p.1 k' p.2 (fun hh => h p (List.mem_cons_self p rest) hh.symm)]

/-- C4 (amended): `busEmit` invokes every exact-topic handler with the
event, then every wildcard handler with `\x7b topic, ...data \x7d`; because the
event's own fields are spread *after* the `topic` slot, the wildcard
argument's `topic` field equals the publish topic only when the event has
no `topic` field of its own — for pipeline events (which always carry
`topic`), the wildcard sees the event's own topic, not the publish topic
(so composite `namespace.typeName` publishes are not visible to wildcard
subscribers through that field). -/
theorem busEmit_order_and_wildcard_topic :
    (∀ (hs : List (String × List Nat)) (topic : String) (data : JObj),
      busEmit hs topic data =
        (handlersFor hs topic).map (fun i => (i, data)) ++
          (handlersFor hs "*").map (fun i => (i, mkAug topic data))) ∧
    (∀ (topic : String) (data : JObj), (∀ p ∈ data, p.1 ≠ "topic") →
      objGet (mkAug topic data) "topic" = some (JVal.s topic)) ∧
    (∀ (topic : String) (e : Evt),
      objGet (mkAug topic (evtToObj e)) "topic" = some (JVal.s e.topic)) := by
  refine ⟨fun _ _ _ => rfl, fun topic data h => ?_, fun topic e => rfl⟩
  unfold mkAug
  rw [objGet_foldl_ne "topic" data h]
  rfl

/-- C4 counterexample: a composite publish on `"holdem.ActionAck"` of an
event whose own topic is `"ActionAck"` hands the wildcard handler an
object whose `topic` field is `"ActionAck"`, not the publish topic. -/
theorem busEmit_composite_topic_mismatch :
    busEmit [("*", [0])] "holdem.ActionAck" (evtToObj sampleEvt) =
      [(0, mkAug "holdem.ActionAck" (evtToObj sampleEvt))] ∧
    objGet (mkAug "holdem.ActionAck" (evtToObj sampleEvt)) "topic" =
      some (JVal.s "ActionAck") ∧
    objGet (mkAug "holdem.ActionAck" (evtToObj sampleEvt)) "topic" ≠
      some (JVal.s "holdem.ActionAck") := by
  refine ⟨rfl, rfl, fun h => ?_⟩
  rw [show objGet (mkAug "holdem.ActionAck" (evtToObj sampleEvt)) "topic" =
      some (JVal.s "ActionAck") from rfl] at h
  injection h with h1
  injection h1 with h2
  exact absurd h2 (by decide)

/-- Witness for `busEmit_order_and_wildcard_topic` at a concrete topic and
a topic-free data object. -/
theorem busEmit_order_and_wildcard_topic_witness :
    objGet (mkAug "Ping" [("seq", JVal.n 1)]) "topic" = some (JVal.s "Ping") :=
  busEmit_order_and_wildcard_topic.2.1 "Ping" [("seq", JVal.n 1)]
    (by intro p hp; simp only [List.mem_singleton] at hp; rw [hp]; decide)

-- ── Action sender (C9) ───────────────────────────────────────────────────

/-- C9 (confirmed): `sendAction` is total (it never raises) and returns
`false` exactly when the registry lacks the `holdem` namespace, no
tracked connection is non-loopback and open, or an encode/transmit step
throws; otherwise it sends the envelope on the first eligible connection
in insertion order and returns `true`. -/
theorem sendAction_cases :
    (∀ (sockets : List (String × Socket)) (r a c : Int),
      sendAction none sockets r a c = (false, none)) ∧
    (∀ (pb : PbRoot) (sockets : List (String × Socket)) (r a c : Int),
      nsLookup pb "holdem" = none → sendAction (some pb) sockets r a c = (false, none)) ∧
    (∀ (pb : PbRoot) (hd : PbNs) (sockets : List (String × Socket)) (r a c : Int),
      nsLookup pb "holdem" = some hd → firstEligible sockets = none →
      sendAction (some pb) sockets r a c = (false, none)) ∧
    (∀ (pb : PbRoot) (hd : PbNs) (sockets : List (String × Socket))
        (s : String × Socket) (r a c : Int),
      nsLookup pb "holdem" = some hd → firstEligible sockets = some s →
      encodeEnvelope hd r a c = none →
      sendAction (some pb) sockets r a c = (false, none)) ∧
    (∀ (pb : PbRoot) (hd : PbNs) (sockets : List (String × Socket))
        (s : String × Socket) (buf : List Nat) (r a c : Int),
      nsLookup pb "holdem" = some hd → firstEligible sockets = some s →
      encodeEnvelope hd r a c = some buf →
      sendAction (some pb) sockets r a c = (s.2.sendOk, some (s.1, buf))) := by
  refine ⟨fun _ _ _ _ => rfl, ?_, ?_, ?_, ?_⟩
  · intro pb sockets r a c h
    unfold sendAction
    simp only [h]
  · intro pb hd sockets r a c h1 h2
    unfold sendAction
    simp only [h1, h2]
  · intro pb hd sockets s r a c h1 h2 h3
    unfold sendAction
    simp only [h1, h2, h3]
  · intro pb hd sockets s buf r a c h1 h2 h3
    unfold sendAction
    simp only [h1, h2, h3]

/-- Witness for `sendAction_cases`: a ready registry and one open
non-loopback socket give a successful send, and a missing registry gives
`(false, none)`. -/
theorem sendAction_cases_witness :
    sendAction (some [("holdem", sampleHoldem)]) [("wss://game", ⟨1, true⟩)] 7 2 0 =
      (true, some ("wss://game", [8, 1])) ∧
    sendAction none [("wss://game", ⟨1, true⟩)] 7 2 0 = (false, none) :=
  ⟨sendAction_cases.2.2.2.2 [("holdem", sampleHoldem)] sampleHoldem
      [("wss://game", ⟨1, true⟩)] ("wss://game", ⟨1, true⟩) [8, 1] 7 2 0
      rfl rfl rfl,
   sendAction_cases.1 [("wss://game", ⟨1, true⟩)] 7 2 0⟩

-- ── Frame classification (C1) ────────────────────────────────────────────

/-- Below `2^31` the signed reinterpretation is the identity. -/
theorem toInt32_of_lt (n : Nat) (h : n < 2 ^ 31) : toInt32 n = (n : Int) := by
  unfold toInt32
  rw [Nat.mod_eq_of_lt (h.trans (by norm_num))]
  rw [if_pos h]

/-- Every outcome of the length-prefixed branch leaves the wrapper loop
untouched. -/
theorem lpBranch_attemptedWrapper (pb : PbRoot) (idm : List (Nat × String × String))
    (now : Nat) (url : String) (bytes : List Nat) :
    (lpBranch pb idm now url bytes).attemptedWrapper = false := by
  unfold lpBranch
  dsimp only
  split
  · split <;> rfl
  · rfl

/-- C1 (amended): every frame whose big-endian 32-bit length prefix
equals its total length, with that length at least 6 **and below 2^31**,
takes the length-prefixed path, and none of that branch's outcomes
reaches the wrapper-scheme namespace loop.  (The bound is forced by the
source: `(bytes[0] << 24) | ...` is a signed 32-bit value, so a declared
length of `2^31` or more is negative and never equals the array length.) -/
theorem lp_never_falls_through (pb? : Option PbRoot) (idm : List (Nat × String × String))
    (mm : List (String × List (Nat × String))) (now : Nat) (url : String) (bytes : List Nat)
    (h1 : u32be bytes = bytes.length) (h2 : 6 ≤ u32be bytes) (h3 : u32be bytes < 2 ^ 31) :
    (decodeFrame pb? idm mm now url bytes).attemptedWrapper = false := by
  cases pb? with
  | none => rfl
  | some pb =>
    have hfl : frameLenI bytes = (bytes.length : Int) := by
      unfold frameLenI
      rw [toInt32_of_lt _ h3, h1]
    have hge : (6 : Int) ≤ frameLenI bytes := by
      rw [hfl]
      exact_mod_cast h1 ▸ h2
    unfold decodeFrame
    dsimp only
    rw [if_neg (by omega : ¬bytes.length < 6), if_pos ⟨hfl, hge⟩]
    exact lpBranch_attemptedWrapper pb idm now url bytes

/-- Witness for `lp_never_falls_through` on a 7-byte length-prefixed
frame. -/
theorem lp_never_falls_through_witness :
    u32be [0, 0, 0, 7, 0, 99, 1] = [0, 0, 0, 7, 0, 99, 1].length ∧
    6 ≤ u32be [0, 0, 0, 7, 0, 99, 1] ∧ u32be [0, 0, 0, 7, 0, 99, 1] < 2 ^ 31 ∧
    (decodeFrame (some []) [] [] 0 "u" [0, 0, 0, 7, 0, 99, 1]).attemptedWrapper = false :=
  ⟨by decide, by decide, by decide,
   lp_never_falls_through (some []) [] [] 0 "u" [0, 0, 0, 7, 0, 99, 1]
     (by decide) (by decide) (by decide)⟩

/-- C1 counterexample: a frame of `2^31` bytes whose unsigned big-endian
length prefix equals its total length (and is ≥ 6) still reaches the
wrapper-scheme namespace loop, because line 157 computes the prefix as a
*signed* 32-bit value (`-2^31` here), so the length check fails. -/
theorem lp_falls_through_at_2pow31 :
    u32be cxBytes = cxBytes.length ∧ 6 ≤ u32be cxBytes ∧
    (decodeFrame (some []) [] [] 0 "u" cxBytes).attemptedWrapper = true := by
  have hlen : cxBytes.length = 2 ^ 31 := by
    show (128 :: 0 :: 0 :: 0 :: 0 :: 0 :: List.replicate (2 ^ 31 - 6) 0).length = 2 ^ 31
    rw [List.length_cons, List.length_cons, List.length_cons, List.length_cons,
      List.length_cons, List.length_cons, List.length_replicate]
    norm_num
  have hu : u32be cxBytes = 2 ^ 31 := by
    show u32be (128 :: 0 :: 0 :: 0 :: 0 :: 0 :: List.replicate (2 ^ 31 - 6) 0) = 2 ^ 31
    unfold u32be byteAt
    rw [List.getD_cons_zero, List.getD_cons_succ, List.getD_cons_zero,
      List.getD_cons_succ, List.getD_cons_succ, List.getD_cons_zero,
      List.getD_cons_succ, List.getD_cons_succ, List.getD_cons_succ, List.getD_cons_zero]
    norm_num
  have hfl : frameLenI cxBytes = -(2 ^ 31 : Int) := by
    unfold frameLenI
    rw [hu]
    decide
  refine ⟨by rw [hu, hlen], by rw [hu]; norm_num, ?_⟩
  unfold decodeFrame
  dsimp only
  rw [if_neg (by rw [hlen]; norm_num : ¬cxBytes.length < 6)]
  rw [if_neg (by
    intro hc
    rw [hfl, hlen] at hc
    have := hc.1
    norm_num at this)]

-- ── Unknown length-prefixed frames (C2, C10) ─────────────────────────────

/-- On the length-prefixed path an unmapped message ID yields no decoded
event, no ring push, no bus publish, exactly one unknown-frame record of
body length `totalFrameLength - 6`, and exactly that record forwarded to
the relay. -/
theorem decode_lp_unknown (pb : PbRoot) (idm : List (Nat × String × String))
    (mm : List (String × List (Nat × String))) (now : Nat) (url : String) (bytes : List Nat)
    (hc1 : frameLenI bytes = (bytes.length : Int)) (hc2 : 6 ≤ frameLenI bytes)
    (hnone : idLookup idm (msgIdOf bytes) = none) :
    (decodeFrame (some pb) idm mm now url bytes).result = none ∧
    (decodeFrame (some pb) idm mm now url bytes).ringPush = [] ∧
    (decodeFrame (some pb) idm mm now url bytes).busEmits = [] ∧
    (decodeFrame (some pb) idm mm now url bytes).unknownPush.map (fun u => u.bodyLen)
      = [bytes.length - 6] ∧
    (decodeFrame (some pb) idm mm now url bytes).relayed
      = (decodeFrame (some pb) idm mm now url bytes).unknownPush.map RelayRec.unk ∧
    (decodeFrame (some pb) idm mm now url bytes).attemptedWrapper = false := by
  have hlen : 6 ≤ bytes.length := by
    have h := hc2
    rw [hc1] at h
    exact_mod_cast h
  have hD : decodeFrame (some pb) idm mm now url bytes = lpBranch pb idm now url bytes := by
    unfold decodeFrame
    dsimp only
    rw [if_neg (by omega : ¬bytes.length < 6), if_pos ⟨hc1, hc2⟩]
  rw [hD]
  unfold lpBranch
  dsimp only
  rw [hnone]
  refine ⟨rfl, rfl, rfl, ?_, rfl, rfl⟩
  by_cases h6 : 6 < bytes.length
  · rw [if_pos h6]
    dsimp only [List.map]
    rw [List.length_drop]
  · rw [if_neg h6]
    have h66 : bytes.length = 6 := le_antisymm (by omega) hlen
    rw [h66]
    rfl

/-- C2 (confirmed): a length-prefixed frame whose 16-bit message ID is
not in the reverse ID map produces no DecodedEvent at all — nothing is
returned, ring-pushed or bus-published — and produces exactly one
UnknownFrame with `bodyLen = totalFrameLength - 6`, pushed into the
unknown-frames ring and forwarded to the relay. -/
theorem lp_unknown_exactly_one_unknown (pb : PbRoot) (idm : List (Nat × String × String))
    (mm : List (String × List (Nat × String))) (now : Nat) (url : String) (bytes : List Nat)
    (hc1 : frameLenI bytes = (bytes.length : Int)) (hc2 : 6 ≤ frameLenI bytes)
    (hnone : idLookup idm (msgIdOf bytes) = none) :
    (decodeFrame (some pb) idm mm now url bytes).result = none ∧
    (decodeFrame (some pb) idm mm now url bytes).ringPush = [] ∧
    (decodeFrame (some pb) idm mm now url bytes).busEmits = [] ∧
    (decodeFrame (some pb) idm mm now url bytes).unknownPush.map (fun u => u.bodyLen)
      = [bytes.length - 6] ∧
    (decodeFrame (some pb) idm mm now url bytes).relayed
      = (decodeFrame (some pb) idm mm now url bytes).unknownPush.map RelayRec.unk :=
  (decode_lp_unknown pb idm mm now url bytes hc1 hc2 hnone).imp id
    (fun h => ⟨h.1, h.2.1, h.2.2.1, h.2.2.2.1⟩) |>.imp id id

/-- Witness for `lp_unknown_exactly_one_unknown` on the 7-byte frame
`[0, 0, 0, 7, 0, 42, 9]` with an empty reverse ID map. -/
theorem lp_unknown_exactly_one_unknown_witness :
    frameLenI [0, 0, 0, 7, 0, 42, 9] = (([0, 0, 0, 7, 0, 42, 9] : List Nat).length : Int) ∧
    6 ≤ frameLenI [0, 0, 0, 7, 0, 42, 9] ∧
    idLookup [] (msgIdOf [0, 0, 0, 7, 0, 42, 9]) = none ∧
    ((decodeFrame (some []) [] [] 0 "u" [0, 0, 0, 7, 0, 42, 9]).result = none ∧
     (decodeFrame (some []) [] [] 0 "u" [0, 0, 0, 7, 0, 42, 9]).ringPush = [] ∧
     (decodeFrame (some []) [] [] 0 "u" [0, 0, 0, 7, 0, 42, 9]).busEmits = [] ∧
     (decodeFrame (some []) [] [] 0 "u" [0, 0, 0, 7, 0, 42, 9]).unknownPush.map
        (fun u => u.bodyLen) = [([0, 0, 0, 7, 0, 42, 9] : List Nat).length - 6] ∧
     (decodeFrame (some []) [] [] 0 "u" [0, 0, 0, 7, 0, 42, 9]).relayed
       = (decodeFrame (some []) [] [] 0 "u" [0, 0, 0, 7, 0, 42, 9]).unknownPush.map
           RelayRec.unk) :=
  ⟨by decide, by decide, rfl,
   lp_unknown_exactly_one_unknown [] [] [] 0 "u" [0, 0, 0, 7, 0, 42, 9]
     (by decide) (by decide) rfl⟩

/-- Fold-preservation of a predicate on the accumulator. -/
theorem foldl_preserve {β γ : Type} (P : β → Prop) (f : β → γ → β)
    (hf : ∀ acc x, P acc → P (f acc x)) :
    ∀ (l : List γ) (acc : β), P acc → P (l.foldl f acc) := by
  intro l
  induction l with
  | nil => intro acc h; exact h
  | cons x rest ih =>
    intro acc h
    rw [List.foldl_cons]
    exact ih (f acc x) (hf acc x h)

/-- Numeric ID 0 is never written into the reverse ID map slot being
updated. -/
theorem idSet_keeps_nonzero (m : List (Nat × String × String)) (id : Nat) (v : String × String)
    (hm : ∀ p ∈ m, p.1 ≠ 0) (hid : id ≠ 0) : ∀ p ∈ idSet m id v, p.1 ≠ 0 := by
  intro p hp
  unfold idSet at hp
  by_cases ha : m.any (fun q => q.1 = id)
  · rw [if_pos ha] at hp
    obtain ⟨q, hq, hqe⟩ := List.mem_map.mp hp
    by_cases hq1 : q.1 = id
    · rw [if_pos hq1] at hqe
      rw [← hqe]
      exact hid
    · rw [if_neg hq1] at hqe
      rw [← hqe]
      exact hm q hq
  · rw [if_neg ha] at hp
    rcases List.mem_append.mp hp with h | h
    · exact hm p h
    · rw [List.mem_singleton] at h
      rw [h]
      exact hid

/-- One namespace's `MessageId` entries never contribute key 0. -/
theorem entriesFold_keeps_nonzero (ns : String) (entries : List (String × Nat)) :
    ∀ acc : List (Nat × String × String), (∀ p ∈ acc, p.1 ≠ 0) →
      ∀ p ∈ entries.foldl (fun m e => if e.2 = 0 then m else idSet m e.2 (ns, e.1)) acc,
        p.1 ≠ 0 := by
  induction entries with
  | nil => intro acc h; exact h
  | cons e rest ih =>
    intro acc h
    rw [List.foldl_cons]
    apply ih
    by_cases he : e.2 = 0
    · rw [if_pos he]
      exact h
    · rw [if_neg he]
      exact idSet_keeps_nonzero acc e.2 (ns, e.1) h he

/-- Each namespace iteration preserves the absence of key 0. -/
theorem nsStep_keeps_nonzero (pb : PbRoot) (acc : List (Nat × String × String)) (ns : String)
    (h : ∀ p ∈ acc, p.1 ≠ 0) : ∀ p ∈ nsStep pb acc ns, p.1 ≠ 0 := by
  unfold nsStep
  cases hn : nsLookup pb ns with
  | none => exact h
  | some nsObj =>
    dsimp only
    cases hm : nsObj.messageId with
    | none => exact h
    | some entries => exact entriesFold_keeps_nonzero ns entries acc h

/-- The reverse ID map never holds an entry with key 0. -/
theorem reverseIdMap_no_zero_key (pb : PbRoot) : ∀ p ∈ buildReverseIdMap pb, p.1 ≠ 0 := by
  unfold buildReverseIdMap
  exact foldl_preserve (fun m => ∀ p ∈ m, p.1 ≠ 0) (nsStep pb)
    (fun acc ns h => nsStep_keeps_nonzero pb acc ns h)
    ["pineapple", "commonProto", "mttPro", "holdem"] []
    (fun p hp => absurd hp (List.not_mem_nil p))

/-- Looking up ID 0 in the reverse ID map always misses. -/
theorem idLookup_zero (pb : PbRoot) : idLookup (buildReverseIdMap pb) 0 = none := by
  unfold idLookup
  rw [List.find?_eq_none.mpr (fun p hp => by simpa using reverseIdMap_no_zero_key pb p hp)]
  rfl

/-- C10 (confirmed): `buildReverseIdMap` skips numeric ID 0 in every
namespace, so the reverse map has no entry for 0 — even when a
namespace's `MessageId` assigns 0 to a type name — and every
length-prefixed frame whose bytes[4..5] decode to 0 is treated as an
unknown frame, never producing a DecodedEvent. -/
theorem reverseIdMap_zero_never_decodes :
    (∀ pb : PbRoot, idLookup (buildReverseIdMap pb) 0 = none) ∧
    (∀ (pb : PbRoot) (mm : List (String × List (Nat × String))) (now : Nat)
        (url : String) (bytes : List Nat),
      frameLenI bytes = (bytes.length : Int) → 6 ≤ frameLenI bytes → msgIdOf bytes = 0 →
      ((decodeFrame (some pb) (buildReverseIdMap pb) mm now url bytes).result = none ∧
       (decodeFrame (some pb) (buildReverseIdMap pb) mm now url bytes).ringPush = [] ∧
       (decodeFrame (some pb) (buildReverseIdMap pb) mm now url bytes).busEmits = [] ∧
       (decodeFrame (some pb) (buildReverseIdMap pb) mm now url bytes).unknownPush.map
          (fun u => u.bodyLen) = [bytes.length - 6])) := by
  refine ⟨idLookup_zero, ?_⟩
  intro pb mm now url bytes h1 h2 h0
  have hnone : idLookup (buildReverseIdMap pb) (msgIdOf bytes) = none := by
    rw [h0]
    exact idLookup_zero pb
  have h := decode_lp_unknown pb (buildReverseIdMap pb) mm now url bytes h1 h2 hnone
  exact ⟨h.1, h.2.1, h.2.2.1, h.2.2.2.1⟩

/-- Witness for `reverseIdMap_zero_never_decodes` on a registry that
assigns ID 0 to `ZeroMsg` and a 6-byte frame with message ID 0. -/
theorem reverseIdMap_zero_never_decodes_witness :
    idLookup (buildReverseIdMap sampleZeroPb) 0 = none ∧
    frameLenI [0, 0, 0, 6, 0, 0] = (([0, 0, 0, 6, 0, 0] : List Nat).length : Int) ∧
    6 ≤ frameLenI [0, 0, 0, 6, 0, 0] ∧ msgIdOf [0, 0, 0, 6, 0, 0] = 0 ∧
    ((decodeFrame (some sampleZeroPb) (buildReverseIdMap sampleZeroPb) [] 0 "u"
        [0, 0, 0, 6, 0, 0]).result = none ∧
     (decodeFrame (some sampleZeroPb) (buildReverseIdMap sampleZeroPb) [] 0 "u"
        [0, 0, 0, 6, 0, 0]).ringPush = [] ∧
     (decodeFrame (some sampleZeroPb) (buildReverseIdMap sampleZeroPb) [] 0 "u"
        [0, 0, 0, 6, 0, 0]).busEmits = [] ∧
     (decodeFrame (some sampleZeroPb) (buildReverseIdMap sampleZeroPb) [] 0 "u"
        [0, 0, 0, 6, 0, 0]).unknownPush.map (fun u => u.bodyLen)
       = [([0, 0, 0, 6, 0, 0] : List Nat).length - 6]) :=
  ⟨reverseIdMap_zero_never_decodes.1 sampleZeroPb, by decide, by decide, rfl,
   reverseIdMap_zero_never_decodes.2 sampleZeroPb [] 0 "u" [0, 0, 0, 6, 0, 0]
     (by decide) (by decide) rfl⟩

-- ── Skip-set topics (C8) ─────────────────────────────────────────────────

/-- When the first namespace whose envelope decode succeeds resolves to a
skip-set type, the wrapper loop returns the null outcome with no side
effects. -/
theorem wrapperLoop_skip (pb : PbRoot) (mm : List (String × List (Nat × String)))
    (now : Nat) (url : String) (bytes : List Nat) :
    ∀ (nss : List String) (ns t : String),
      firstWrapperHit pb bytes nss = some (ns, t) → lastSeg t ∈ SKIP_TOPICS →
      wrapperLoop pb mm now url bytes nss = nullOutcome := by
  intro nss
  induction nss with
  | nil =>
    intro ns t h hskip
    exact Option.noConfusion h
  | cons n rest ih =>
    intro ns t h hskip
    unfold firstWrapperHit at h
    unfold wrapperLoop
    cases hd : (nsLookup pb n).bind (fun o => o.wrapperDecode) with
    | none =>
      rw [hd] at h
      exact ih ns t h hskip
    | some dec =>
      rw [hd] at h
      dsimp only at h ⊢
      cases hw : dec bytes with
      | none =>
        rw [hw] at h
        exact ih ns t h hskip
      | some w =>
        rw [hw] at h
        dsimp only at h ⊢
        by_cases ht : w.topic = ""
        · rw [if_pos ht] at h ⊢
          exact ih ns t h hskip
        · rw [if_neg ht] at h ⊢
          have ht2 : t = w.topic := by
            injection h with h1
            exact (congrArg Prod.snd h1).symm
          rw [if_pos (ht2 ▸ hskip)]

/-- C8 (confirmed): a frame that resolves to a skip-set type name (Ping,
Pong, RealIp, AnimMsg, VoiceMsg) makes `decodeFrame` return null with no
side effect — nothing pushed to either ring, nothing bus-published,
nothing forwarded to the relay — under the length-prefixed scheme and
under the wrapper scheme alike. -/
theorem skip_topics_never_recorded :
    (∀ (pb : PbRoot) (idm : List (Nat × String × String))
        (mm : List (String × List (Nat × String))) (now : Nat) (url : String)
        (bytes : List Nat) (ns ty : String),
      frameLenI bytes = (bytes.length : Int) → 6 ≤ frameLenI bytes →
      idLookup idm (msgIdOf bytes) = some (ns, ty) → ty ∈ SKIP_TOPICS →
      decodeFrame (some pb) idm mm now url bytes = nullOutcome) ∧
    (∀ (pb : PbRoot) (idm : List (Nat × String × String))
        (mm : List (String × List (Nat × String))) (now : Nat) (url : String)
        (bytes : List Nat) (ns t : String),
      ¬bytes.length < 6 →
      ¬(frameLenI bytes = (bytes.length : Int) ∧ 6 ≤ frameLenI bytes) →
      firstWrapperHit pb bytes GAME_NAMESPACES = some (ns, t) →
      lastSeg t ∈ SKIP_TOPICS →
      decodeFrame (some pb) idm mm now url bytes =
        { nullOutcome with attemptedWrapper := true }) := by
  constructor
  · intro pb idm mm now url bytes ns ty h1 h2 hsome hskip
    have hlen : 6 ≤ bytes.length := by
      have h := h2
      rw [h1] at h
      exact_mod_cast h
    unfold decodeFrame
    dsimp only
    rw [if_neg (by omega : ¬bytes.length < 6), if_pos ⟨h1, h2⟩]
    unfold lpBranch
    dsimp only
    rw [hsome]
    dsimp only
    rw [if_pos hskip]
  · intro pb idm mm now url bytes ns t hlt hcond hhit hskip
    unfold decodeFrame
    dsimp only
    rw [if_neg hlt, if_neg hcond]
    rw [wrapperLoop_skip pb mm now url bytes GAME_NAMESPACES ns t hhit hskip]

/-- Witness for `skip_topics_never_recorded`: a length-prefixed `Ping`
frame and a wrapper `Ping` envelope both leave no trace. -/
theorem skip_topics_never_recorded_witness :
    frameLenI [0, 0, 0, 7, 0, 42, 9] = (([0, 0, 0, 7, 0, 42, 9] : List Nat).length : Int) ∧
    6 ≤ frameLenI [0, 0, 0, 7, 0, 42, 9] ∧
    idLookup [(42, ("holdem", "Ping"))] (msgIdOf [0, 0, 0, 7, 0, 42, 9])
      = some ("holdem", "Ping") ∧
    "Ping" ∈ SKIP_TOPICS ∧
    decodeFrame (some []) [(42, ("holdem", "Ping"))] [] 0 "u" [0, 0, 0, 7, 0, 42, 9]
      = nullOutcome ∧
    ¬([1, 2, 3, 4, 5, 6] : List Nat).length < 6 ∧
    ¬(frameLenI [1, 2, 3, 4, 5, 6] = (([1, 2, 3, 4, 5, 6] : List Nat).length : Int) ∧
        6 ≤ frameLenI [1, 2, 3, 4, 5, 6]) ∧
    firstWrapperHit [("holdem", samplePingNs)] [1, 2, 3, 4, 5, 6] GAME_NAMESPACES
      = some ("holdem", "Ping") ∧
    lastSeg "Ping" ∈ SKIP_TOPICS ∧
    decodeFrame (some [("holdem", samplePingNs)]) [] [] 0 "u" [1, 2, 3, 4, 5, 6]
      = { nullOutcome with attemptedWrapper := true } :=
  ⟨by decide, by decide, rfl, by decide,
   skip_topics_never_recorded.1 [] [(42, ("holdem", "Ping"))] [] 0 "u" [0, 0, 0, 7, 0, 42, 9]
     "holdem" "Ping" (by decide) (by decide) rfl (by decide),
   by decide, by decide, rfl, by decide,
   skip_topics_never_recorded.2 [("holdem", samplePingNs)] [] [] 0 "u" [1, 2, 3, 4, 5, 6]
     "holdem" "Ping" (by decide) (by decide) rfl (by decide)⟩

end ProtoTap
